import Mathlib

/-!
Shallow embedding of the otkpp `NativeSolver` base class
(src/otkpp/localsolvers/native/NativeSolver.h) and of the generic
solve-loop driver described in its specification.

The repository sources contain only the header: it declares the data model
(`IterationStatus`, `State`, `Results`, the counter `nIter_`) and the method
surface (`iterate()`, `solve()`, `setup_()`, the accessors), but no method
bodies.  The data model below is translated from the header; the bodies of
`iterate`, `setup_` and the solve loop are modelled from the specification
and each such definition is marked `Modelled from the spec:`.

Modelling conventions:
* C++ `double` is `DVal`: a rational number or one of the non-finite values
  (positive/negative infinity, NaN).  `isfinite` becomes `DVal.isFinite`.
* C++ `unsigned int` counters are natural numbers kept below `UINT_MOD = 2^32`;
  every increment is taken modulo `UINT_MOD`, which is exactly the
  wrap-around arithmetic of `unsigned int`.
* `vector<double>` is `List DVal`; `matrix<double>` is a list of columns
  `List (List DVal)` (the header uses `X` as a matrix whose columns are
  points).
* A concrete solver subclass is an `Algorithm`: its `iterate_` step and its
  `hasBuiltInStoppingCriterion` flag, the two pure-virtual extension points
  of the header.
* Mutation of the live solver is explicit state passing: `iterate` consumes
  a `NativeSolver` value and returns the updated one.
-/

/-- Modulus of C++ `unsigned int` arithmetic. -/
def UINT_MOD : Nat := 4294967296

/-- Model of a C++ `double`: a finite rational number or one of the
non-finite IEEE values. -/
inductive DVal where
  | fin : ℚ → DVal
  | posInf : DVal
  | negInf : DVal
  | nan : DVal
deriving DecidableEq

/-- Counterpart of `isfinite` on doubles. -/
def DVal.isFinite : DVal → Bool
  | DVal.fin _ => true
  | _ => false

/-- Model of the objective `Function` collaborator (external to the core,
consumed through the narrow interface of the spec): value, gradient and
Hessian at a point, plus the function's own evaluation counters, each an
`unsigned int`. -/
structure ObjFunc where
  n : Nat
  eval : List DVal → DVal
  grad : List DVal → List DVal
  hess : List DVal → List (List DVal)
  nFuncEval : Nat
  nGradEval : Nat
  nHessEval : Nat

/-- Function-value evaluation through the counting interface: returns the
value and the function with its own `nFuncEval` counter incremented
(`unsigned int` wrap-around). -/
def ObjFunc.evalF (F : ObjFunc) (x : List DVal) : DVal × ObjFunc :=
  (F.eval x, { F with nFuncEval := (F.nFuncEval + 1) % UINT_MOD })

/-- Gradient evaluation through the counting interface. -/
def ObjFunc.evalG (F : ObjFunc) (x : List DVal) : List DVal × ObjFunc :=
  (F.grad x, { F with nGradEval := (F.nGradEval + 1) % UINT_MOD })

/-- Hessian evaluation through the counting interface. -/
def ObjFunc.evalH (F : ObjFunc) (x : List DVal) : List (List DVal) × ObjFunc :=
  (F.hess x, { F with nHessEval := (F.nHessEval + 1) % UINT_MOD })

/-- Reset of the evaluation counters, performed only by `setup_`. -/
def ObjFunc.resetCounters (F : ObjFunc) : ObjFunc :=
  { F with nFuncEval := 0, nGradEval := 0, nHessEval := 0 }

/-- `NativeSolver::IterationStatus` (header lines 24-30). -/
inductive IterationStatus where
  | ITERATION_CONTINUE
  | ITERATION_SUCCESS
  | ITERATION_NO_PROGRESS
  | ITERATION_OUT_OF_CONTROL
deriving DecidableEq

/-- `NativeSolver::State` (header lines 32-40): function value `f`, current
point `x`, and the matrix `X` whose columns are the points produced in the
current step. -/
structure State where
  f : DVal
  x : List DVal
  X : List (List DVal)
deriving DecidableEq

/-- `State::clone` (header line 39).  Modelled from the spec: the clone is a
deep, independently owned copy of `f`, `x`, `X`; in the value semantics of
the embedding this is a field-by-field copy. -/
def State.clone (s : State) : State :=
  { f := s.f, x := s.x, X := s.X }

/-- The live `NativeSolver` instance: the iteration counter `nIter_`
(header line 103), the bound objective function, and the current `State`. -/
structure NativeSolver where
  nIter_ : Nat
  objFunc : ObjFunc
  state : State

/-- A concrete solver subclass: the two pure-virtual extension points of the
header, `iterate_()` (line 106) and `hasBuiltInStoppingCriterion()`
(line 91).  `iterate_` consumes the current state and the objective function
and produces the updated state, the updated objective function (its counters
grow as the step evaluates it) and the step's `IterationStatus`. -/
structure Algorithm where
  hasBuiltInStoppingCriterion : Bool
  iterate_ : State → ObjFunc → State × ObjFunc × IterationStatus

/-- `NativeSolver::getState` (header line 85). -/
def NativeSolver.getState (s : NativeSolver) : State := s.state

/-- `NativeSolver::getState_` (header line 105). -/
def NativeSolver.getState_ (s : NativeSolver) : State := s.state

/-- `NativeSolver::getX` (header line 51): the current iterate, read from the
current state. -/
def NativeSolver.getX (s : NativeSolver) : List DVal := s.state.x

/-- `NativeSolver::getXArray` (header line 61): the matrix of current
iterates, read from the current state. -/
def NativeSolver.getXArray (s : NativeSolver) : List (List DVal) := s.state.X

/-- `NativeSolver::getFVal` (header line 64). -/
def NativeSolver.getFVal (s : NativeSolver) : DVal := s.state.f

/-- `NativeSolver::getGradient` (header line 67): delegated to the objective
function at the current point. -/
def NativeSolver.getGradient (s : NativeSolver) : List DVal :=
  s.objFunc.grad s.state.x

/-- `NativeSolver::getHessian` (header line 70): delegated to the objective
function at the current point. -/
def NativeSolver.getHessian (s : NativeSolver) : List (List DVal) :=
  s.objFunc.hess s.state.x

/-- `NativeSolver::getNumIter` (header line 73): the counter owned by the
solver. -/
def NativeSolver.getNumIter (s : NativeSolver) : Nat := s.nIter_

/-- `NativeSolver::getNumFuncEval` (header line 76): forwarded from the
objective function's own counter. -/
def NativeSolver.getNumFuncEval (s : NativeSolver) : Nat := s.objFunc.nFuncEval

/-- `NativeSolver::getNumGradEval` (header line 79): forwarded from the
objective function's own counter. -/
def NativeSolver.getNumGradEval (s : NativeSolver) : Nat := s.objFunc.nGradEval

/-- `NativeSolver::getNumHessEval` (header line 82): forwarded from the
objective function's own counter. -/
def NativeSolver.getNumHessEval (s : NativeSolver) : Nat := s.objFunc.nHessEval

/-- `NativeSolver::iterate` (header line 94).  Modelled from the spec:
increments `nIter_` (unsigned-int wrap-around), invokes the
algorithm-specific `iterate_()` exactly once, and returns its
`IterationStatus` unchanged. -/
def NativeSolver.iterate (A : Algorithm) (s : NativeSolver) :
    NativeSolver × IterationStatus :=
  let r := A.iterate_ s.state s.objFunc
  ({ nIter_ := (s.nIter_ + 1) % UINT_MOD, objFunc := r.2.1, state := r.1 }, r.2.2)

/-- The configuration error of the solve contract. -/
inductive SolveError where
  | dimensionMismatch
deriving DecidableEq

/-- The initial `State` computed from `x0`: the function value at `x0`, the
point `x0`, and the one-column matrix holding `x0`. -/
def mkInitialState (F : ObjFunc) (x0 : List DVal) : State :=
  { f := F.eval x0, x := x0, X := [x0] }

/-- `NativeSolver::setup_` (header lines 107-110).  Modelled from the spec:
checks that the dimension of `x0` is compatible with the objective
function's domain (failing fast with a dimension-mismatch configuration
error otherwise), resets `nIter_` to 0, resets the objective function's
evaluation counters, and computes the initial `State` from `x0` through the
counting evaluation interface. -/
def NativeSolver.setup_ (F : ObjFunc) (x0 : List DVal) :
    Except SolveError NativeSolver :=
  if x0.length = F.n then
    let r := F.resetCounters.evalF x0
    Except.ok { nIter_ := 0, objFunc := r.2, state := { f := r.1, x := x0, X := [x0] } }
  else
    Except.error SolveError.dimensionMismatch

/-- The packaged outcome of a run: the terminal status, the archived state
sequence (`NativeSolver::Results::states`, header line 44), the iteration
count, and — as a ghost field used to state the temporal properties — the
chronological list of the statuses returned by the `iterate()` calls. -/
structure SolveResult where
  status : IterationStatus
  states : List State
  numIter : Nat
  trace : List IterationStatus
deriving DecidableEq

/-- Modelled from the spec: the body of the solve loop.  Each round calls
`iterate()` and appends an independent clone of the resulting current state
to the archive; then, if the new function value is non-finite the run stops
with `ITERATION_OUT_OF_CONTROL`; if `iterate()` returned a terminal status
the run stops with that status; if the solver has no built-in stopping
criterion and the external criterion is satisfied the run stops with
`ITERATION_SUCCESS`; otherwise the loop continues.  `fuel` bounds the number
of rounds; `none` means the loop did not terminate within `fuel` rounds. -/
def solveLoop (A : Algorithm) (sc : NativeSolver → Bool) :
    Nat → NativeSolver → List State → List IterationStatus → Option SolveResult
  | 0, _, _, _ => none
  | fuel + 1, s, archive, tr =>
    let p := NativeSolver.iterate A s
    let archive1 := archive ++ [State.clone p.1.state]
    let tr1 := tr ++ [p.2]
    if p.1.state.f.isFinite = false then
      some { status := IterationStatus.ITERATION_OUT_OF_CONTROL, states := archive1,
             numIter := p.1.nIter_, trace := tr1 }
    else if p.2 = IterationStatus.ITERATION_CONTINUE then
      if A.hasBuiltInStoppingCriterion = false ∧ sc p.1 = true then
        some { status := IterationStatus.ITERATION_SUCCESS, states := archive1,
               numIter := p.1.nIter_, trace := tr1 }
      else
        solveLoop A sc fuel p.1 archive1 tr1
    else
      some { status := p.2, states := archive1, numIter := p.1.nIter_, trace := tr1 }

/-- `NativeSolver::solve` (header lines 96-101).  Modelled from the spec:
calls `setup_` (propagating its configuration error as a hard failure,
before any iteration runs and before any `State` is recorded), records the
initial state snapshot as an independent clone, and runs the solve loop. -/
def NativeSolver.solve (A : Algorithm) (F : ObjFunc) (x0 : List DVal)
    (sc : NativeSolver → Bool) (fuel : Nat) :
    Except SolveError (Option SolveResult) :=
  match NativeSolver.setup_ F x0 with
  | Except.error e => Except.error e
  | Except.ok s0 => Except.ok (solveLoop A sc fuel s0 [State.clone s0.state] [])

/-! ## Basic lemmas about the embedded operations -/

theorem State.clone_eq (st : State) : State.clone st = st := rfl

theorem iterate_nIter (A : Algorithm) (s : NativeSolver) :
    (NativeSolver.iterate A s).1.nIter_ = (s.nIter_ + 1) % UINT_MOD := rfl

theorem iterate_state (A : Algorithm) (s : NativeSolver) :
    (NativeSolver.iterate A s).1.state = (A.iterate_ s.state s.objFunc).1 := rfl

theorem iterate_objFunc (A : Algorithm) (s : NativeSolver) :
    (NativeSolver.iterate A s).1.objFunc = (A.iterate_ s.state s.objFunc).2.1 := rfl

theorem iterate_status (A : Algorithm) (s : NativeSolver) :
    (NativeSolver.iterate A s).2 = (A.iterate_ s.state s.objFunc).2.2 := rfl

/-- Counting invariant of the solve loop: a terminating run makes `k` calls
to `iterate()` with `1 ≤ k ≤ fuel`, appends one trace entry and one archived
state per call, and the final iteration counter is the initial one advanced
`k` times with unsigned wrap-around. -/
theorem solveLoop_counts (A : Algorithm) (sc : NativeSolver → Bool) (fuel : Nat) :
    ∀ (s : NativeSolver) (archive : List State) (tr : List IterationStatus)
      (r : SolveResult), solveLoop A sc fuel s archive tr = some r →
      ∃ k, 1 ≤ k ∧ k ≤ fuel ∧ r.trace.length = tr.length + k ∧
        r.states.length = archive.length + k ∧
        r.numIter = (s.nIter_ + k) % UINT_MOD := by
  induction fuel with
  | zero => intro s archive tr r hr; simp [solveLoop] at hr
  | succ n ih =>
    intro s archive tr r hr
    simp only [solveLoop] at hr
    split at hr
    · injection hr with h
      subst h
      exact ⟨1, le_refl 1, Nat.le_add_left 1 n, by simp, by simp,
        by simp [iterate_nIter]⟩
    · split at hr
      · split at hr
        · injection hr with h
          subst h
          exact ⟨1, le_refl 1, Nat.le_add_left 1 n, by simp, by simp,
            by simp [iterate_nIter]⟩
        · obtain ⟨k, hk1, hk2, htr, hst, hni⟩ := ih _ _ _ r hr
          refine ⟨k + 1, Nat.le_add_left 1 k, Nat.add_le_add_right hk2 1, ?_, ?_, ?_⟩
          · simp at htr; omega
          · simp at hst; omega
          · rw [hni, iterate_nIter, Nat.mod_add_mod]
            congr 1
            omega
      · injection hr with h
        subst h
        exact ⟨1, le_refl 1, Nat.le_add_left 1 n, by simp, by simp,
          by simp [iterate_nIter]⟩

theorem take_concat_self {α : Type} (l : List α) (c : α) :
    (l ++ [c]).take l.length = l :=
  List.take_left l [c]

theorem take_of_concat_take {α : Type} {res l : List α} {c : α}
    (h : res.take (l ++ [c]).length = l ++ [c]) : res.take l.length = l := by
  have h3 : (res.take (l ++ [c]).length).take l.length = (l ++ [c]).take l.length := by
    rw [h]
  rw [List.take_take] at h3
  rw [take_concat_self] at h3
  have hmin : l.length ⊓ (l ++ [c]).length = l.length := by
    simp only [List.length_append, List.length_cons, List.length_nil]
    omega
  rw [hmin] at h3
  exact h3

/-- Frame invariant of the solve loop: whatever was already archived (or
already traced) when the loop is entered is still there, unchanged, at the
same positions, in the final result — later mutation of the live solver
never rewrites recorded history. -/
theorem solveLoop_archive_stable (A : Algorithm) (sc : NativeSolver → Bool) (fuel : Nat) :
    ∀ (s : NativeSolver) (archive : List State) (tr : List IterationStatus)
      (r : SolveResult), solveLoop A sc fuel s archive tr = some r →
      r.states.take archive.length = archive ∧ r.trace.take tr.length = tr := by
  induction fuel with
  | zero => intro s archive tr r hr; simp [solveLoop] at hr
  | succ n ih =>
    intro s archive tr r hr
    simp only [solveLoop] at hr
    split at hr
    · injection hr with h
      subst h
      exact ⟨take_concat_self _ _, take_concat_self _ _⟩
    · split at hr
      · split at hr
        · injection hr with h
          subst h
          exact ⟨take_concat_self _ _, take_concat_self _ _⟩
        · obtain ⟨h1, h2⟩ := ih _ _ _ r hr
          exact ⟨take_of_concat_take h1, take_of_concat_take h2⟩
      · injection hr with h
        subst h
        exact ⟨take_concat_self _ _, take_concat_self _ _⟩

/-- Temporal invariant of the solve loop: every status in the trace except
the last one is `ITERATION_CONTINUE` — once a terminal status is returned,
no further `iterate()` call is made. -/
theorem solveLoop_continues (A : Algorithm) (sc : NativeSolver → Bool) (fuel : Nat) :
    ∀ (s : NativeSolver) (archive : List State) (tr : List IterationStatus)
      (r : SolveResult),
      (∀ st ∈ tr, st = IterationStatus.ITERATION_CONTINUE) →
      solveLoop A sc fuel s archive tr = some r →
      ∀ st ∈ r.trace.dropLast, st = IterationStatus.ITERATION_CONTINUE := by
  induction fuel with
  | zero => intro s archive tr r _ hr; simp [solveLoop] at hr
  | succ n ih =>
    intro s archive tr r htr hr
    simp only [solveLoop] at hr
    split at hr
    · injection hr with h
      subst h
      simpa [List.dropLast_concat] using htr
    · split at hr
      · rename_i hcont
        split at hr
        · injection hr with h
          subst h
          simpa [List.dropLast_concat] using htr
        · apply ih _ _ _ r _ hr
          intro st hst
          rcases List.mem_append.mp hst with h1 | h1
          · exact htr st h1
          · rw [List.mem_singleton] at h1
            rw [h1, hcont]
      · injection hr with h
        subst h
        simpa [List.dropLast_concat] using htr

/-- Divergence invariant of the solve loop: provided every already-archived
state beyond the initial snapshot has a finite function value, any archived
state with a non-finite function value in the final result is the very last
archived state, and the run's status is `ITERATION_OUT_OF_CONTROL`. -/
theorem solveLoop_nonfinite (A : Algorithm) (sc : NativeSolver → Bool) (fuel : Nat) :
    ∀ (s : NativeSolver) (archive : List State) (tr : List IterationStatus)
      (r : SolveResult),
      (∀ j st, archive[j]? = some st → 1 ≤ j → st.f.isFinite = true) →
      solveLoop A sc fuel s archive tr = some r →
      ∀ i st, r.states[i]? = some st → 1 ≤ i → st.f.isFinite = false →
        r.status = IterationStatus.ITERATION_OUT_OF_CONTROL ∧ i + 1 = r.states.length := by
  induction fuel with
  | zero => intro s archive tr r _ hr; simp [solveLoop] at hr
  | succ n ih =>
    intro s archive tr r hfin hr
    simp only [solveLoop] at hr
    split at hr
    · rename_i hnf
      injection hr with h
      subst h
      intro i st hst h1 hif
      have hlen : i < archive.length + 1 := by
        by_contra hcon
        rw [List.getElem?_eq_none (by simp; omega)] at hst
        cases hst
      rcases Nat.lt_or_ge i archive.length with hlt | hge
      · exfalso
        rw [List.getElem?_append_left hlt] at hst
        have := hfin i st hst h1
        rw [this] at hif
        cases hif
      · have hieq : i = archive.length := by omega
        subst hieq
        rw [List.getElem?_concat_length] at hst
        injection hst with hst
        refine ⟨rfl, by simp⟩
    · rename_i hnf
      have hfin1 : (NativeSolver.iterate A s).1.state.f.isFinite = true := by
        revert hnf
        cases (NativeSolver.iterate A s).1.state.f.isFinite <;> simp
      split at hr
      · rename_i hcont
        split at hr
        · injection hr with h
          subst h
          intro i st hst h1 hif
          have hlen : i < archive.length + 1 := by
            by_contra hcon
            rw [List.getElem?_eq_none (by simp; omega)] at hst
            cases hst
          rcases Nat.lt_or_ge i archive.length with hlt | hge
          · exfalso
            rw [List.getElem?_append_left hlt] at hst
            have := hfin i st hst h1
            rw [this] at hif
            cases hif
          · exfalso
            have hieq : i = archive.length := by omega
            subst hieq
            rw [List.getElem?_concat_length] at hst
            injection hst with hst
            rw [← hst, State.clone_eq, hfin1] at hif
            cases hif
        · apply ih _ _ _ r _ hr
          intro j st hst h1
          have hlen : j < archive.length + 1 := by
            by_contra hcon
            rw [List.getElem?_eq_none (by simp; omega)] at hst
            cases hst
          rcases Nat.lt_or_ge j archive.length with hlt | hge
          · rw [List.getElem?_append_left hlt] at hst
            exact hfin j st hst h1
          · have hjeq : j = archive.length := by omega
            subst hjeq
            rw [List.getElem?_concat_length] at hst
            injection hst with hst
            rw [← hst, State.clone_eq]
            exact hfin1
      · injection hr with h
        subst h
        intro i st hst h1 hif
        have hlen : i < archive.length + 1 := by
          by_contra hcon
          rw [List.getElem?_eq_none (by simp; omega)] at hst
          cases hst
        rcases Nat.lt_or_ge i archive.length with hlt | hge
        · exfalso
          rw [List.getElem?_append_left hlt] at hst
          have := hfin i st hst h1
          rw [this] at hif
          cases hif
        · exfalso
          have hieq : i = archive.length := by omega
          subst hieq
          rw [List.getElem?_concat_length] at hst
          injection hst with hst
          rw [← hst, State.clone_eq, hfin1] at hif
          cases hif

/-- The column invariant of a captured `State` (spec section 3): `X` has at
least one column, and if it has exactly one, that column is `x`. -/
def State.WFcols (st : State) : Prop :=
  1 ≤ st.X.length ∧ (st.X.length = 1 → st.X = [st.x])

/-- Preservation of the column invariant by the solve loop: if every
already-archived state satisfies it and the algorithm's `iterate_` only
produces states satisfying it, then every state archived by a terminating
run satisfies it. -/
theorem solveLoop_WFcols (A : Algorithm) (sc : NativeSolver → Bool)
    (hA : ∀ st G, State.WFcols (A.iterate_ st G).1) (fuel : Nat) :
    ∀ (s : NativeSolver) (archive : List State) (tr : List IterationStatus)
      (r : SolveResult),
      (∀ st ∈ archive, State.WFcols st) →
      solveLoop A sc fuel s archive tr = some r →
      ∀ st ∈ r.states, State.WFcols st := by
  induction fuel with
  | zero => intro s archive tr r _ hr; simp [solveLoop] at hr
  | succ n ih =>
    intro s archive tr r harch hr
    have hnew : State.WFcols (State.clone (NativeSolver.iterate A s).1.state) := by
      rw [State.clone_eq, iterate_state]
      exact hA s.state s.objFunc
    have harch1 : ∀ st ∈ archive ++ [State.clone (NativeSolver.iterate A s).1.state],
        State.WFcols st := by
      intro st hst
      rcases List.mem_append.mp hst with h1 | h1
      · exact harch st h1
      · rw [List.mem_singleton] at h1
        rw [h1]
        exact hnew
    simp only [solveLoop] at hr
    split at hr
    · injection hr with h
      subst h
      exact harch1
    · split at hr
      · split at hr
        · injection hr with h
          subst h
          exact harch1
        · exact ih _ _ _ r harch1 hr
      · injection hr with h
        subst h
        exact harch1

/-- Helper: the fields established by a successful `setup_`. -/
theorem setup_ok (F : ObjFunc) (x0 : List DVal) (s0 : NativeSolver)
    (h : NativeSolver.setup_ F x0 = Except.ok s0) :
    s0.nIter_ = 0 ∧ s0.state = mkInitialState F x0 ∧ x0.length = F.n := by
  unfold NativeSolver.setup_ at h
  split at h
  · rename_i hdim
    injection h with h
    subst h
    exact ⟨rfl, rfl, hdim⟩
  · simp at h

/-- Helper: a list whose first take is a singleton has that head. -/
theorem head?_of_take_one {α : Type} {l : List α} {a : α}
    (h : l.take 1 = [a]) : l.head? = some a := by
  cases l with
  | nil => simp at h
  | cons b t =>
    simp only [List.take_succ_cons, List.take_zero] at h
    injection h with h
    rw [h]
    rfl

/-! ## Concrete instances used by witnesses and counterexamples -/

/-- A one-dimensional objective function, constantly zero. -/
def objFunc1 : ObjFunc :=
  { n := 1, eval := fun _ => DVal.fin 0, grad := fun _ => [DVal.fin 0],
    hess := fun _ => [[DVal.fin 0]], nFuncEval := 0, nGradEval := 0, nHessEval := 0 }

/-- A two-dimensional variant, for dimension-mismatch runs. -/
def objFunc2 : ObjFunc := { objFunc1 with n := 2 }

/-- A well-behaved single-point algorithm without a built-in stopping
criterion: each step keeps the current point, records it as the single
column of `X`, and returns a finite value and CONTINUE. -/
def contAlg : Algorithm :=
  { hasBuiltInStoppingCriterion := false,
    iterate_ := fun st G => ({ f := DVal.fin 0, x := st.x, X := [st.x] }, G,
      IterationStatus.ITERATION_CONTINUE) }

/-- An algorithm with a built-in stopping criterion that succeeds on its
first step. -/
def succAlg : Algorithm :=
  { hasBuiltInStoppingCriterion := true,
    iterate_ := fun st G => ({ f := DVal.fin 0, x := st.x, X := [st.x] }, G,
      IterationStatus.ITERATION_SUCCESS) }

/-- An algorithm without a built-in stopping criterion whose steps produce a
non-finite (NaN) function value. -/
def nanAlg : Algorithm :=
  { hasBuiltInStoppingCriterion := false,
    iterate_ := fun st G => ({ f := DVal.nan, x := st.x, X := [st.x] }, G,
      IterationStatus.ITERATION_CONTINUE) }

/-- The always-satisfied external stopping criterion. -/
def scTrue : NativeSolver → Bool := fun _ => true

/-- The never-satisfied external stopping criterion. -/
def scFalse : NativeSolver → Bool := fun _ => false

/-- An external stopping criterion satisfied once two iterations have
run. -/
def scTwo : NativeSolver → Bool := fun t => t.nIter_ == 2

/-- Whether a status is `ITERATION_CONTINUE`. -/
def isContinue : IterationStatus → Bool
  | IterationStatus.ITERATION_CONTINUE => true
  | _ => false

/-- The number of CONTINUE-returning `iterate()` calls in a trace. -/
def numContinueCalls (tr : List IterationStatus) : Nat :=
  (tr.filter isContinue).length

/-- The placeholder result used by the extraction helpers below. -/
def emptyResult : SolveResult :=
  { status := IterationStatus.ITERATION_CONTINUE, states := [], numIter := 0,
    trace := [] }

/-- Extraction of the result of a completed run, to write closed witness
statements. -/
def resultOf (e : Except SolveError (Option SolveResult)) : SolveResult :=
  match e with
  | Except.ok (some r) => r
  | _ => emptyResult

/-- Extraction of the result of a solve-loop fragment. -/
def optResultOf (o : Option SolveResult) : SolveResult :=
  o.getD emptyResult

/-- A concrete live solver. -/
def solver0 : NativeSolver :=
  { nIter_ := 0, objFunc := objFunc1,
    state := { f := DVal.fin 0, x := [DVal.fin 10], X := [[DVal.fin 10]] } }

/-- A concrete archived state. -/
def st0 : State := { f := DVal.fin 3, x := [DVal.fin 4], X := [[DVal.fin 4]] }

/-! ## Claim theorems -/

/-- C2: every call to `iterate()` increments the iteration counter `nIter_`
by exactly one (the hypothesis rules out `unsigned int` wrap-around of the
counter, which C10 covers), invokes the algorithm-specific `iterate_()`
exactly once on the current state and objective function — the updated
state and objective function are exactly those of that single call — and
returns the `IterationStatus` of `iterate_()` unchanged, for every concrete
solver. -/
theorem iterate_increments_and_forwards (A : Algorithm) (s : NativeSolver)
    (h : s.nIter_ + 1 < UINT_MOD) :
    (NativeSolver.iterate A s).1.nIter_ = s.nIter_ + 1 ∧
    (NativeSolver.iterate A s).2 = (A.iterate_ s.state s.objFunc).2.2 ∧
    (NativeSolver.iterate A s).1.state = (A.iterate_ s.state s.objFunc).1 ∧
    (NativeSolver.iterate A s).1.objFunc = (A.iterate_ s.state s.objFunc).2.1 := by
  refine ⟨?_, rfl, rfl, rfl⟩
  rw [iterate_nIter]
  exact Nat.mod_eq_of_lt h

/-- Witness for C2 at a concrete solver with iteration counter 0. -/
theorem iterate_increments_and_forwards_witness :
    solver0.nIter_ + 1 < UINT_MOD ∧
    (NativeSolver.iterate contAlg solver0).1.nIter_ = solver0.nIter_ + 1 :=
  ⟨by decide, (iterate_increments_and_forwards contAlg solver0 (by decide)).1⟩

/-- C6: if the dimensionality of `x0` is incompatible with the objective
function's domain, `solve()` fails with the dimension-mismatch
configuration error — a hard failure whose return value carries no result
record at all, hence produced before any iteration has run and before any
`State` has been archived. -/
theorem solve_dimension_mismatch (A : Algorithm) (F : ObjFunc) (x0 : List DVal)
    (sc : NativeSolver → Bool) (fuel : Nat) (h : x0.length ≠ F.n) :
    NativeSolver.solve A F x0 sc fuel = Except.error SolveError.dimensionMismatch := by
  unfold NativeSolver.solve NativeSolver.setup_
  rw [if_neg h]

/-- Witness for C6: a one-dimensional `x0` against a two-dimensional
objective function. -/
theorem solve_dimension_mismatch_witness :
    ([DVal.fin 1] : List DVal).length ≠ objFunc2.n ∧
    NativeSolver.solve contAlg objFunc2 [DVal.fin 1] scTrue 5 =
      Except.error SolveError.dimensionMismatch :=
  ⟨by decide,
   solve_dimension_mismatch contAlg objFunc2 [DVal.fin 1] scTrue 5 (by decide)⟩

/-- C9: a successful `setup_` resets `nIter_` to 0 and establishes the
initial state from `x0`; `getNumIter` returns the solver-owned counter
while the three evaluation-count accessors return exactly the objective
function's own counters; and each evaluation operation only advances its
own counter — none of them resets a counter, so the counters are reset only
by `setup_`. -/
theorem setup_resets_and_counters_forwarded (F : ObjFunc) (x0 : List DVal)
    (s0 : NativeSolver) (h : NativeSolver.setup_ F x0 = Except.ok s0) :
    s0.nIter_ = 0 ∧
    NativeSolver.getNumIter s0 = 0 ∧
    s0.state = mkInitialState F x0 ∧
    (∀ t : NativeSolver, NativeSolver.getNumIter t = t.nIter_ ∧
      NativeSolver.getNumFuncEval t = t.objFunc.nFuncEval ∧
      NativeSolver.getNumGradEval t = t.objFunc.nGradEval ∧
      NativeSolver.getNumHessEval t = t.objFunc.nHessEval) ∧
    (∀ (G : ObjFunc) (x : List DVal),
      (G.evalF x).2.nFuncEval = (G.nFuncEval + 1) % UINT_MOD ∧
      (G.evalF x).2.nGradEval = G.nGradEval ∧
      (G.evalF x).2.nHessEval = G.nHessEval ∧
      (G.evalG x).2.nGradEval = (G.nGradEval + 1) % UINT_MOD ∧
      (G.evalG x).2.nFuncEval = G.nFuncEval ∧
      (G.evalG x).2.nHessEval = G.nHessEval ∧
      (G.evalH x).2.nHessEval = (G.nHessEval + 1) % UINT_MOD ∧
      (G.evalH x).2.nFuncEval = G.nFuncEval ∧
      (G.evalH x).2.nGradEval = G.nGradEval) := by
  unfold NativeSolver.setup_ at h
  split at h
  · injection h with h
    subst h
    exact ⟨rfl, rfl, rfl, fun t => ⟨rfl, rfl, rfl, rfl⟩,
      fun G x => ⟨rfl, rfl, rfl, rfl, rfl, rfl, rfl, rfl, rfl⟩⟩
  · simp at h

/-- Witness for C9 at a concrete setup call. -/
theorem setup_resets_and_counters_forwarded_witness :
    NativeSolver.setup_ objFunc1 [DVal.fin 10] =
      Except.ok { nIter_ := 0, objFunc := { objFunc1 with nFuncEval := 1 },
                  state := mkInitialState objFunc1 [DVal.fin 10] } ∧
    ({ nIter_ := 0, objFunc := { objFunc1 with nFuncEval := 1 },
       state := mkInitialState objFunc1 [DVal.fin 10] } : NativeSolver).nIter_ = 0 := by
  have h : NativeSolver.setup_ objFunc1 [DVal.fin 10] =
      Except.ok { nIter_ := 0, objFunc := { objFunc1 with nFuncEval := 1 },
                  state := mkInitialState objFunc1 [DVal.fin 10] } := rfl
  exact ⟨h, (setup_resets_and_counters_forwarded objFunc1 [DVal.fin 10] _ h).1⟩

/-- C10: the four counter accessors return `unsigned int` values: they are
never negative (as integers), remain below `2^32` whenever the stored
counters are, and each counter increment wraps modulo `2^32` instead of
overflowing to a negative value. -/
theorem counters_unsigned (A : Algorithm) (s : NativeSolver) (G : ObjFunc)
    (x : List DVal)
    (h1 : s.nIter_ < UINT_MOD) (h2 : G.nFuncEval < UINT_MOD)
    (h3 : G.nGradEval < UINT_MOD) (h4 : G.nHessEval < UINT_MOD) :
    (0 : Int) ≤ (NativeSolver.getNumIter s : Int) ∧
    (0 : Int) ≤ (NativeSolver.getNumFuncEval s : Int) ∧
    (0 : Int) ≤ (NativeSolver.getNumGradEval s : Int) ∧
    (0 : Int) ≤ (NativeSolver.getNumHessEval s : Int) ∧
    NativeSolver.getNumIter (NativeSolver.iterate A s).1 < UINT_MOD ∧
    (s.nIter_ = UINT_MOD - 1 →
      NativeSolver.getNumIter (NativeSolver.iterate A s).1 = 0) ∧
    (G.evalF x).2.nFuncEval < UINT_MOD ∧
    (G.nFuncEval = UINT_MOD - 1 → (G.evalF x).2.nFuncEval = 0) ∧
    (G.evalG x).2.nGradEval < UINT_MOD ∧
    (G.nGradEval = UINT_MOD - 1 → (G.evalG x).2.nGradEval = 0) ∧
    (G.evalH x).2.nHessEval < UINT_MOD ∧
    (G.nHessEval = UINT_MOD - 1 → (G.evalH x).2.nHessEval = 0) := by
  have hM : 0 < UINT_MOD := by norm_num [UINT_MOD]
  have hwrap : (UINT_MOD - 1 + 1) % UINT_MOD = 0 := by norm_num [UINT_MOD]
  simp only [NativeSolver.getNumIter, NativeSolver.getNumFuncEval,
    NativeSolver.getNumGradEval, NativeSolver.getNumHessEval, iterate_nIter,
    ObjFunc.evalF, ObjFunc.evalG, ObjFunc.evalH]
  refine ⟨Int.natCast_nonneg _, Int.natCast_nonneg _, Int.natCast_nonneg _,
    Int.natCast_nonneg _, Nat.mod_lt _ hM, ?_, Nat.mod_lt _ hM, ?_,
    Nat.mod_lt _ hM, ?_, Nat.mod_lt _ hM, ?_⟩
  · intro h
    rw [h]
    exact hwrap
  · intro h
    rw [h]
    exact hwrap
  · intro h
    rw [h]
    exact hwrap
  · intro h
    rw [h]
    exact hwrap

/-- Witness for C10 at a concrete solver and objective function. -/
theorem counters_unsigned_witness :
    solver0.nIter_ < UINT_MOD ∧
    NativeSolver.getNumIter (NativeSolver.iterate contAlg solver0).1 < UINT_MOD :=
  ⟨by decide,
   (counters_unsigned contAlg solver0 objFunc1 [] (by decide) (by decide)
     (by decide) (by decide)).2.2.2.2.1⟩

/-- C1 (amended): after a terminating `solve()` run, `getNumIter()` equals
the total number of `iterate()` calls made before termination — of which
every one except possibly the last returned CONTINUE — and equals
`Results.states.size() - 1`; the archived sequence is exactly the initial
snapshot followed by one entry per `iterate()` call, in chronological
order. -/
theorem solve_iteration_count (A : Algorithm) (F : ObjFunc) (x0 : List DVal)
    (sc : NativeSolver → Bool) (fuel : Nat) (r : SolveResult)
    (hfuel : fuel < UINT_MOD)
    (hr : NativeSolver.solve A F x0 sc fuel = Except.ok (some r)) :
    r.numIter = r.trace.length ∧
    r.states.length = r.numIter + 1 ∧
    r.states.head? = some (mkInitialState F x0) := by
  unfold NativeSolver.solve at hr
  split at hr
  · cases hr
  · rename_i s0 hsetup
    injection hr with hr
    obtain ⟨h0, hs0, _⟩ := setup_ok F x0 s0 hsetup
    obtain ⟨k, hk1, hk2, htr, hst, hni⟩ :=
      solveLoop_counts A sc fuel s0 [State.clone s0.state] [] r hr
    have hklt : k < UINT_MOD := by omega
    have hnum : r.numIter = k := by
      rw [hni, h0]
      simpa using Nat.mod_eq_of_lt hklt
    simp only [List.length_nil, List.length_cons] at htr hst
    refine ⟨by omega, by omega, ?_⟩
    have htake := (solveLoop_archive_stable A sc fuel s0 [State.clone s0.state] [] r hr).1
    simp only [List.length_cons, List.length_nil] at htake
    have := head?_of_take_one htake
    rw [this, State.clone_eq, hs0]

/-- C1 is refuted as stated: for the built-in-criterion algorithm whose
first step returns SUCCESS, the run makes one `iterate()` call returning
SUCCESS and none returning CONTINUE, yet `getNumIter()` is 1 (which does
equal `states.size() - 1`), so `getNumIter()` is not the number of
CONTINUE-returning calls. -/
theorem solve_iteration_count_cex :
    NativeSolver.solve succAlg objFunc1 [DVal.fin 10] scFalse 5 =
      Except.ok (some (resultOf
        (NativeSolver.solve succAlg objFunc1 [DVal.fin 10] scFalse 5))) ∧
    (resultOf (NativeSolver.solve succAlg objFunc1 [DVal.fin 10] scFalse 5)).numIter
      = 1 ∧
    numContinueCalls (resultOf
      (NativeSolver.solve succAlg objFunc1 [DVal.fin 10] scFalse 5)).trace = 0 ∧
    (1 : Nat) ≠ 0 :=
  ⟨rfl, rfl, rfl, by decide⟩

/-- Witness for the amended C1 on a two-iteration run stopped by the
external criterion. -/
theorem solve_iteration_count_witness :
    10 < UINT_MOD ∧
    (resultOf (NativeSolver.solve contAlg objFunc1 [DVal.fin 10] scTwo 10)).numIter =
      (resultOf (NativeSolver.solve contAlg objFunc1 [DVal.fin 10] scTwo 10)).trace.length ∧
    (resultOf (NativeSolver.solve contAlg objFunc1 [DVal.fin 10] scTwo 10)).states.length =
      (resultOf (NativeSolver.solve contAlg objFunc1 [DVal.fin 10] scTwo 10)).numIter + 1 := by
  have h := solve_iteration_count contAlg objFunc1 [DVal.fin 10] scTwo 10
    (resultOf (NativeSolver.solve contAlg objFunc1 [DVal.fin 10] scTwo 10))
    (by decide) rfl
  exact ⟨by decide, h.1, h.2.1⟩

/-- C3: in a `solve()` run, once an `iterate()` call returns SUCCESS,
NO_PROGRESS or OUT_OF_CONTROL, no further `iterate()` call is made: every
entry of the call trace other than the final one is CONTINUE. -/
theorem solve_terminal_is_last (A : Algorithm) (F : ObjFunc) (x0 : List DVal)
    (sc : NativeSolver → Bool) (fuel : Nat) (r : SolveResult)
    (hr : NativeSolver.solve A F x0 sc fuel = Except.ok (some r))
    (i : Nat) (h : i + 1 < r.trace.length) :
    r.trace.get ⟨i, Nat.lt_of_succ_lt h⟩ = IterationStatus.ITERATION_CONTINUE := by
  unfold NativeSolver.solve at hr
  split at hr
  · cases hr
  · rename_i s0 hsetup
    injection hr with hr
    have hcont := solveLoop_continues A sc fuel s0 [State.clone s0.state] [] r
      (by intro st hst; simp at hst) hr
    apply hcont
    have hd : i < r.trace.dropLast.length := by
      rw [List.length_dropLast]
      omega
    have he : r.trace.dropLast[i] = r.trace[i] :=
      List.getElem_dropLast r.trace i hd
    rw [List.get_eq_getElem, ← he]
    exact List.getElem_mem hd

/-- Witness for C3 on a two-call trace: the non-final call returned
CONTINUE. -/
theorem solve_terminal_is_last_witness :
    (resultOf (NativeSolver.solve contAlg objFunc1 [DVal.fin 10] scTwo 10)).trace.get
      ⟨0, Nat.lt_of_succ_lt (by decide)⟩ = IterationStatus.ITERATION_CONTINUE :=
  solve_terminal_is_last contAlg objFunc1 [DVal.fin 10] scTwo 10
    (resultOf (NativeSolver.solve contAlg objFunc1 [DVal.fin 10] scTwo 10))
    rfl 0 (by decide)

/-- C4: `clone()` yields a state whose `f`, `x`, `X` equal those of the
cloned state, and archived clones are immune to later mutation of the live
solver: resuming the loop from any intermediate live solver only appends to
the archive, leaving every already-archived clone unchanged at its
position. -/
theorem clone_immune_to_mutation (A : Algorithm) (sc : NativeSolver → Bool)
    (fuel : Nat) (s : NativeSolver) (archive : List State)
    (tr : List IterationStatus) (r : SolveResult)
    (hr : solveLoop A sc fuel s archive tr = some r) :
    (∀ st : State, (State.clone st).f = st.f ∧ (State.clone st).x = st.x ∧
      (State.clone st).X = st.X) ∧
    r.states.take archive.length = archive :=
  ⟨fun _ => ⟨rfl, rfl, rfl⟩,
   (solveLoop_archive_stable A sc fuel s archive tr r hr).1⟩

/-- Witness for C4: a loop resumed over a nonempty archive preserves it. -/
theorem clone_immune_to_mutation_witness :
    solveLoop contAlg scTrue 5 solver0 [st0] [] =
      some (optResultOf (solveLoop contAlg scTrue 5 solver0 [st0] [])) ∧
    (optResultOf (solveLoop contAlg scTrue 5 solver0 [st0] [])).states.take 1 =
      [st0] := by
  refine ⟨rfl, ?_⟩
  exact (clone_immune_to_mutation contAlg scTrue 5 solver0 [st0] [] _ rfl).2

/-- C5: if an `iterate_()` step during `solve()` produces a non-finite
function value — i.e. some archived state beyond the initial snapshot has a
non-finite `f` — then the run terminates with OUT_OF_CONTROL recorded in
the result's status field (not thrown: `solve` still returns a result
record) and no further iterations occur: that state is the last archived
one. -/
theorem solve_nonfinite_out_of_control (A : Algorithm) (F : ObjFunc)
    (x0 : List DVal) (sc : NativeSolver → Bool) (fuel : Nat) (r : SolveResult)
    (hr : NativeSolver.solve A F x0 sc fuel = Except.ok (some r))
    (i : Nat) (hi : 1 ≤ i) (st : State) (hst : r.states[i]? = some st)
    (hnf : st.f.isFinite = false) :
    r.status = IterationStatus.ITERATION_OUT_OF_CONTROL ∧
    i + 1 = r.states.length := by
  unfold NativeSolver.solve at hr
  split at hr
  · cases hr
  · rename_i s0 hsetup
    injection hr with hr
    apply solveLoop_nonfinite A sc fuel s0 [State.clone s0.state] [] r _ hr i st
      hst hi hnf
    intro j stj hj h1
    rw [List.getElem?_eq_none (by simp; omega)] at hj
    cases hj

/-- Witness for C5: a run whose first step produces NaN stops at once with
OUT_OF_CONTROL. -/
theorem solve_nonfinite_out_of_control_witness :
    (resultOf (NativeSolver.solve nanAlg objFunc1 [DVal.fin 10] scTrue 5)).status =
      IterationStatus.ITERATION_OUT_OF_CONTROL ∧
    1 + 1 = (resultOf
      (NativeSolver.solve nanAlg objFunc1 [DVal.fin 10] scTrue 5)).states.length :=
  solve_nonfinite_out_of_control nanAlg objFunc1 [DVal.fin 10] scTrue 5
    (resultOf (NativeSolver.solve nanAlg objFunc1 [DVal.fin 10] scTrue 5))
    rfl 1 (by decide)
    { f := DVal.nan, x := [DVal.fin 10], X := [[DVal.fin 10]] }
    (by decide) (by decide)

/-- C7 (amended): if the solver has no built-in stopping criterion, the
external stopping criterion is satisfied for every state, and the first
`iterate_()` step returns CONTINUE with a finite function value, then
`solve()` terminates with SUCCESS after exactly one iteration: the result
records one call, iteration count 1 and two archived states. -/
theorem solve_always_satisfied_success (A : Algorithm) (F : ObjFunc)
    (x0 : List DVal) (sc : NativeSolver → Bool) (fuel : Nat) (s0 : NativeSolver)
    (hbi : A.hasBuiltInStoppingCriterion = false)
    (hsc : ∀ t, sc t = true)
    (hsetup : NativeSolver.setup_ F x0 = Except.ok s0)
    (hfuel : 1 ≤ fuel)
    (hst : (A.iterate_ s0.state s0.objFunc).2.2 =
      IterationStatus.ITERATION_CONTINUE)
    (hfin : (A.iterate_ s0.state s0.objFunc).1.f.isFinite = true) :
    NativeSolver.solve A F x0 sc fuel =
      Except.ok (some
        { status := IterationStatus.ITERATION_SUCCESS,
          states := [State.clone s0.state,
                     State.clone (A.iterate_ s0.state s0.objFunc).1],
          numIter := 1,
          trace := [IterationStatus.ITERATION_CONTINUE] }) := by
  obtain ⟨h0, _, _⟩ := setup_ok F x0 s0 hsetup
  obtain ⟨n, rfl⟩ : ∃ n, fuel = n + 1 := ⟨fuel - 1, by omega⟩
  unfold NativeSolver.solve
  rw [hsetup]
  simp only [solveLoop, NativeSolver.iterate, hfin, hst, hbi, hsc, h0]
  norm_num [UINT_MOD]

/-- C7 is refuted as stated: `nanAlg` has no built-in stopping criterion
and `scTrue` is satisfied for every state, yet the run terminates with
OUT_OF_CONTROL (its first step produced a NaN function value), not with
SUCCESS. -/
theorem solve_always_satisfied_success_cex :
    nanAlg.hasBuiltInStoppingCriterion = false ∧
    scTrue solver0 = true ∧
    NativeSolver.solve nanAlg objFunc1 [DVal.fin 10] scTrue 5 =
      Except.ok (some (resultOf
        (NativeSolver.solve nanAlg objFunc1 [DVal.fin 10] scTrue 5))) ∧
    (resultOf (NativeSolver.solve nanAlg objFunc1 [DVal.fin 10] scTrue 5)).status =
      IterationStatus.ITERATION_OUT_OF_CONTROL ∧
    IterationStatus.ITERATION_OUT_OF_CONTROL ≠ IterationStatus.ITERATION_SUCCESS :=
  ⟨rfl, rfl, rfl, rfl, by decide⟩

/-- Witness for the amended C7 on a well-behaved single-point algorithm. -/
theorem solve_always_satisfied_success_witness :
    NativeSolver.solve contAlg objFunc1 [DVal.fin 10] scTrue 3 =
      Except.ok (some
        { status := IterationStatus.ITERATION_SUCCESS,
          states := [mkInitialState objFunc1 [DVal.fin 10],
                     { f := DVal.fin 0, x := [DVal.fin 10], X := [[DVal.fin 10]] }],
          numIter := 1,
          trace := [IterationStatus.ITERATION_CONTINUE] }) := by
  have h := solve_always_satisfied_success contAlg objFunc1 [DVal.fin 10] scTrue 3
    { nIter_ := 0, objFunc := { objFunc1 with nFuncEval := 1 },
      state := mkInitialState objFunc1 [DVal.fin 10] }
    rfl (fun _ => rfl) rfl (by decide) rfl rfl
  exact h

/-- C8: provided the concrete algorithm only produces states satisfying the
column invariant — `X` has at least one column, and a single column equals
`x` — every state captured during a `solve()` run satisfies it; moreover for
any solver whose current state is single-point (`X = [x]`), `getXArray()`
returns the matrix with exactly one column, and that column is `getX()`. -/
theorem solve_states_column_invariant (A : Algorithm) (F : ObjFunc)
    (x0 : List DVal) (sc : NativeSolver → Bool) (fuel : Nat) (r : SolveResult)
    (hA : ∀ st G, State.WFcols (A.iterate_ st G).1)
    (hr : NativeSolver.solve A F x0 sc fuel = Except.ok (some r)) :
    (∀ st ∈ r.states, State.WFcols st) ∧
    (∀ t : NativeSolver, t.state.X = [t.state.x] →
      NativeSolver.getXArray t = [NativeSolver.getX t] ∧
      (NativeSolver.getXArray t).length = 1) := by
  constructor
  · unfold NativeSolver.solve at hr
    split at hr
    · cases hr
    · rename_i s0 hsetup
      injection hr with hr
      obtain ⟨_, hs0, _⟩ := setup_ok F x0 s0 hsetup
      apply solveLoop_WFcols A sc hA fuel s0 [State.clone s0.state] [] r _ hr
      intro st hstm
      rw [List.mem_singleton] at hstm
      rw [hstm, State.clone_eq, hs0]
      exact ⟨by simp [mkInitialState], fun _ => rfl⟩
  · intro t ht
    refine ⟨ht, ?_⟩
    rw [NativeSolver.getXArray, ht]
    rfl

/-- Witness for C8: the initial snapshot of a concrete run satisfies the
column invariant. -/
theorem solve_states_column_invariant_witness :
    State.WFcols (mkInitialState objFunc1 [DVal.fin 10]) := by
  have h := solve_states_column_invariant contAlg objFunc1 [DVal.fin 10] scTrue 5
    (resultOf (NativeSolver.solve contAlg objFunc1 [DVal.fin 10] scTrue 5))
    (fun st G => ⟨by simp [contAlg], fun _ => rfl⟩) rfl
  apply h.1
  decide
